import Mathlib

/-!
Verification of the notes-ledger core of triagebot's `note` handler
(`src/handlers/note.rs`), as a shallow embedding in Lean 4.

The embedding mirrors the Rust source:
* `NoteDataEntry` / `NoteData` are the ledger data model.
* `NoteDataEntry.to_markdown` and `NoteData.to_markdown` are the renderer.
* `NoteData.remove` embeds `NoteData::remove`; the source calls
  `self.entries.iter().position(..).unwrap()`, which panics when no entry
  matches, so the embedding returns `Option NoteData` with `none`
  standing for the panic.
* `handle_command` embeds the dispatcher.  The source unwraps
  `event.issue()` and `event.html_url()` (a panic when absent), reads the
  persisted state with `current_data().unwrap_or_default()`, applies the
  command, renders, and persists the pair (markdown, state) in one call
  to `EditIssueBody::apply`.  The embedding returns `HandleResult`:
  `.ok md st` carries exactly the pair handed to the persistence
  collaborator, and `.panicked` stands for a process abort via `unwrap`.
-/

namespace Triagebot

/-- One note record: `struct NoteDataEntry` in the source. -/
structure NoteDataEntry where
  title : String
  comment_url : String
  author : String
deriving DecidableEq, Repr

/-- `NoteDataEntry::to_markdown`: the bullet for one entry,
`format!("\n- [\"{title}\" by @{author}]({comment_url})", ..)`. -/
def NoteDataEntry.to_markdown (e : NoteDataEntry) : String :=
  "\n- [\"" ++ e.title ++ "\" by @" ++ e.author ++ "](" ++ e.comment_url ++ ")"

/-- The ledger: `struct NoteData { entries: Vec<NoteDataEntry> }`. -/
structure NoteData where
  entries : List NoteDataEntry
deriving DecidableEq, Repr

/-- `Default` for `NoteData` (`#[derive(Default)]`): empty entries. -/
def NoteData.default : NoteData := ⟨[]⟩

/-- The fixed section header the renderer emits before the bullets. -/
def summaryHeader : String := "\n### Summary Notes\n"

/-- The generator attribution line the renderer appends after the bullets,
pointing at the triagebot Note documentation. -/
def attributionLine : String :=
  "\n\nGenerated by triagebot, see [help](https://github.com/rust-lang/triagebot/wiki/Note) for how to add more"

/-- `NoteData::to_markdown`: empty entries render to the empty string;
otherwise the header, then each entry's bullet in ledger order, then the
attribution line. -/
def NoteData.to_markdown (d : NoteData) : String :=
  if d.entries.isEmpty then ""
  else
    summaryHeader
      ++ String.join (d.entries.map NoteDataEntry.to_markdown)
      ++ attributionLine

/-- `NoteData::remove`: the source computes
`self.entries.iter().position(|x| x.title == title).unwrap()` and then
`self.entries.remove(idx)`.  `position` returning `None` makes `unwrap`
panic; the embedding returns `none` in that case. -/
def NoteData.remove (d : NoteData) (title : String) : Option NoteData :=
  match d.entries.findIdx? (fun x => x.title == title) with
  | none => none
  | some idx => some ⟨d.entries.eraseIdx idx⟩

/-- Opaque reference to the target document; the dispatcher only needs its
presence (`event.issue().unwrap()`). -/
structure Issue where
  number : Nat
deriving DecidableEq, Repr

/-- The event context the dispatcher reads: `event.issue()` and
`event.html_url()` are `Option`s in the source (unwrapped by the
dispatcher); `event.user().login` is always present. -/
structure Event where
  issue : Option Issue
  html_url : Option String
  user_login : String
deriving DecidableEq, Repr

/-- `NoteCommand` from the command parser: `Summary { title }` adds an
entry, `Remove { title }` removes one. -/
inductive NoteCommand where
  | Summary (title : String)
  | Remove (title : String)
deriving DecidableEq, Repr

/-- Outcome of one dispatcher invocation: `.ok md st` is the pair
(new markdown, new structured state) passed to `EditIssueBody::apply`;
`.panicked` is a process abort caused by an `unwrap` on `None`. -/
inductive HandleResult where
  | ok (markdown : String) (state : NoteData)
  | panicked
deriving DecidableEq, Repr

/-- `handle_command`: unwrap the issue, read the persisted state
(absent defaults to the empty ledger), unwrap the comment url, apply the
command, render, and hand (markdown, state) to the persistence
collaborator. -/
def handle_command (event : Event) (stored : Option NoteData)
    (cmd : NoteCommand) : HandleResult :=
  match event.issue with
  | none => .panicked
  | some _ =>
    let current : NoteData := stored.getD NoteData.default
    match event.html_url with
    | none => .panicked
    | some comment_url =>
      let author := event.user_login
      match cmd with
      | .Summary title =>
          let new_entry : NoteDataEntry :=
            { title := title, comment_url := comment_url, author := author }
          let updated : NoteData := ⟨current.entries ++ [new_entry]⟩
          .ok updated.to_markdown updated
      | .Remove title =>
          match current.remove title with
          | none => .panicked
          | some updated => .ok updated.to_markdown updated

/-- Run a sequence of commands through the dispatcher, each one reading
the state persisted by the previous invocation; a panic stops the run. -/
def runCommands (event : Event) (init : HandleResult)
    (cmds : List NoteCommand) : HandleResult :=
  cmds.foldl
    (fun st cmd =>
      match st with
      | .panicked => .panicked
      | .ok _ d => handle_command event (some d) cmd)
    init

/-! ### Helper lemmas -/

/-- Removing a title whose first entry matches deletes that head entry. -/
theorem remove_cons_hit (e : NoteDataEntry) (l : List NoteDataEntry) (t : String)
    (he : e.title = t) : NoteData.remove ⟨e :: l⟩ t = some ⟨l⟩ := by
  simp [NoteData.remove, List.findIdx?_cons, he]

/-- Removing a title skips a non-matching head entry. -/
theorem remove_cons_miss (a : NoteDataEntry) (l : List NoteDataEntry) (t : String)
    (ha : a.title ≠ t) :
    NoteData.remove ⟨a :: l⟩ t
      = Option.map (fun d => (⟨a :: d.entries⟩ : NoteData)) (NoteData.remove ⟨l⟩ t) := by
  simp only [NoteData.remove, List.findIdx?_cons]
  rw [if_neg (by simp [ha]), List.findIdx?_succ]
  cases h : List.findIdx? (fun x => x.title == t) l with
  | none => simp [h]
  | some idx => simp [h, List.eraseIdx_cons_succ]

/-- Unfolding of the dispatcher on an `Add` with context present. -/
theorem handle_add (event : Event) (i : Issue) (url : String)
    (hI : event.issue = some i) (hU : event.html_url = some url)
    (d : NoteData) (t : String) :
    handle_command event (some d) (.Summary t)
      = .ok (NoteData.to_markdown ⟨d.entries ++ [⟨t, url, event.user_login⟩]⟩)
            ⟨d.entries ++ [⟨t, url, event.user_login⟩]⟩ := by
  simp [handle_command, hI, hU]

/-- `runCommands` on the empty command list returns its initial result. -/
theorem runCommands_nil (event : Event) (st : HandleResult) :
    runCommands event st [] = st := rfl

/-- `runCommands` steps by one dispatcher invocation on the persisted state. -/
theorem runCommands_cons (event : Event) (m : String) (d : NoteData)
    (c : NoteCommand) (cs : List NoteCommand) :
    runCommands event (.ok m d) (c :: cs)
      = runCommands event (handle_command event (some d) c) cs := rfl

/-- A non-empty ledger renders to header, bullets in order, attribution. -/
theorem to_markdown_of_ne_nil (d : NoteData) (h : d.entries ≠ []) :
    d.to_markdown
      = summaryHeader ++ String.join (d.entries.map NoteDataEntry.to_markdown)
          ++ attributionLine := by
  rw [NoteData.to_markdown, if_neg (by simp [List.isEmpty_iff, h])]

/-! ### Claims -/

/-- C6: the ledger with an empty entries sequence renders to exactly the
empty string. -/
theorem C6_render_empty : NoteData.to_markdown ⟨[]⟩ = "" := rfl

/-- C5: the one-entry ledger `{title:"fix-typo", author:"alice",
commentUrl:"https://x/1"}` renders to the section header, the bullet
`- ["fix-typo" by @alice](https://x/1)`, and the generator attribution
line; in general a non-empty ledger renders to the header, one bullet per
entry in ledger order, and the attribution line. -/
theorem C5_render_nonempty :
    NoteData.to_markdown ⟨[⟨"fix-typo", "https://x/1", "alice"⟩]⟩
      = "\n### Summary Notes\n\n- [\"fix-typo\" by @alice](https://x/1)\n\nGenerated by triagebot, see [help](https://github.com/rust-lang/triagebot/wiki/Note) for how to add more"
    ∧ ∀ d : NoteData, d.entries ≠ [] →
        d.to_markdown
          = summaryHeader ++ String.join (d.entries.map NoteDataEntry.to_markdown)
              ++ attributionLine := by
  exact ⟨rfl, to_markdown_of_ne_nil⟩

/-- Witness for C5 at the concrete one-entry ledger of the claim. -/
theorem C5_render_nonempty_witness :
    NoteData.to_markdown ⟨[⟨"fix-typo", "https://x/1", "alice"⟩]⟩
      = summaryHeader
          ++ String.join ([NoteDataEntry.mk "fix-typo" "https://x/1" "alice"].map
              NoteDataEntry.to_markdown)
          ++ attributionLine :=
  C5_render_nonempty.2 ⟨[⟨"fix-typo", "https://x/1", "alice"⟩]⟩ (by simp)

/-- C1 (code bug): `NoteData::remove` panics via `unwrap` when no entry
matches (embedded as `none`), and the dispatcher propagates the panic
(process abort) instead of a typed recoverable `EntryNotFound` error:
on the empty ledger and on a no-match ledger the dispatcher result is
`panicked`. -/
theorem C1_remove_missing_panics :
    NoteData.remove ⟨[]⟩ "x" = none
    ∧ NoteData.remove ⟨[⟨"a", "u1", "w1"⟩]⟩ "x" = none
    ∧ handle_command ⟨some ⟨1⟩, some "u", "w"⟩ none (.Remove "x") = .panicked
    ∧ handle_command ⟨some ⟨1⟩, some "u", "w"⟩ (some ⟨[⟨"a", "u1", "w1"⟩]⟩)
        (.Remove "x") = .panicked :=
  ⟨rfl, rfl, rfl, rfl⟩

/-- C2: removing a title that occurs in the ledger deletes exactly the
first matching entry (the one after a prefix of non-matching entries),
leaving every other entry in its original relative order. -/
theorem C2_remove_first_match (pre post : List NoteDataEntry) (e : NoteDataEntry)
    (t : String) (he : e.title = t) (hpre : ∀ x ∈ pre, x.title ≠ t) :
    NoteData.remove ⟨pre ++ e :: post⟩ t = some ⟨pre ++ post⟩ := by
  induction pre with
  | nil => simpa using remove_cons_hit e post t he
  | cons a pre ih =>
    have ha : a.title ≠ t := hpre a (by simp)
    rw [List.cons_append, remove_cons_miss a (pre ++ e :: post) t ha,
      ih (fun x hx => hpre x (by simp [hx]))]
    rfl

/-- Witness for C2 at the claim's concrete ledger: removing title `a`
from `[{a,u1},{b,u2},{a,u3}]` yields `[{b,u2},{a,u3}]`. -/
theorem C2_remove_first_match_witness :
    NoteData.remove ⟨[⟨"a", "u1", "w1"⟩, ⟨"b", "u2", "w2"⟩, ⟨"a", "u3", "w3"⟩]⟩ "a"
      = some ⟨[⟨"b", "u2", "w2"⟩, ⟨"a", "u3", "w3"⟩]⟩ :=
  C2_remove_first_match [] [⟨"b", "u2", "w2"⟩, ⟨"a", "u3", "w3"⟩]
    ⟨"a", "u1", "w1"⟩ "a" rfl (by simp)

/-- A run of `Add` commands through the dispatcher appends, in order, one
entry per command to whatever entries the starting state holds. -/
theorem runCommands_adds (event : Event) (i : Issue) (url : String)
    (hI : event.issue = some i) (hU : event.html_url = some url)
    (ts : List String) :
    ∀ (m : String) (d : NoteData), ∃ md,
      runCommands event (.ok m d) (ts.map NoteCommand.Summary)
        = .ok md ⟨d.entries ++ ts.map (fun t => ⟨t, url, event.user_login⟩)⟩ := by
  induction ts with
  | nil =>
    intro m d
    exact ⟨m, by simp [runCommands]⟩
  | cons t ts ih =>
    intro m d
    obtain ⟨md, hmd⟩ :=
      ih (NoteData.to_markdown ⟨d.entries ++ [⟨t, url, event.user_login⟩]⟩)
        ⟨d.entries ++ [⟨t, url, event.user_login⟩]⟩
    refine ⟨md, ?_⟩
    rw [List.map_cons, runCommands_cons, handle_add event i url hI hU d t, hmd]
    simp

/-- C3: with context present, every `Add` succeeds, appends its entry at
the end, and increases the entry count by exactly one; a whole sequence of
`Add{title_i}` commands run by the dispatcher from an initially empty
ledger yields exactly the entries of the commands, in application order. -/
theorem C3_adds_in_order (event : Event) (i : Issue) (url : String)
    (hI : event.issue = some i) (hU : event.html_url = some url) :
    (∀ (d : NoteData) (t : String), ∃ md st,
        handle_command event (some d) (.Summary t) = .ok md st
        ∧ st.entries = d.entries ++ [⟨t, url, event.user_login⟩]
        ∧ st.entries.length = d.entries.length + 1)
    ∧ ∀ ts : List String, ∃ md,
        runCommands event (.ok "" NoteData.default) (ts.map NoteCommand.Summary)
          = .ok md ⟨ts.map (fun t => ⟨t, url, event.user_login⟩)⟩ := by
  constructor
  · intro d t
    exact ⟨_, _, handle_add event i url hI hU d t, rfl, by simp⟩
  · intro ts
    simpa using runCommands_adds event i url hI hU ts "" NoteData.default

/-- Witness for C3: two adds on an empty ledger from a concrete event
yield the two entries in command order. -/
theorem C3_adds_in_order_witness :
    ∃ md, runCommands ⟨some ⟨1⟩, some "u", "al"⟩ (.ok "" NoteData.default)
        (["one", "two"].map NoteCommand.Summary)
      = .ok md ⟨[⟨"one", "u", "al"⟩, ⟨"two", "u", "al"⟩]⟩ :=
  (C3_adds_in_order ⟨some ⟨1⟩, some "u", "al"⟩ ⟨1⟩ "u" rfl rfl).2 ["one", "two"]

/-- C4: appending twice with the same title produces two distinct entries
in the ledger (no uniqueness check rejects or merges the second), and the
rendering has one bullet per entry, the two duplicates included, in
insertion order. -/
theorem C4_duplicates (event : Event) (i : Issue) (url : String)
    (hI : event.issue = some i) (hU : event.html_url = some url)
    (d : NoteData) (t : String) :
    ∃ md, runCommands event (.ok "" d) [.Summary t, .Summary t]
        = .ok md ⟨d.entries
            ++ [⟨t, url, event.user_login⟩, ⟨t, url, event.user_login⟩]⟩
      ∧ md = summaryHeader
          ++ String.join ((d.entries
              ++ [NoteDataEntry.mk t url event.user_login,
                  NoteDataEntry.mk t url event.user_login]).map
                NoteDataEntry.to_markdown)
          ++ attributionLine := by
  refine ⟨NoteData.to_markdown ⟨d.entries
      ++ [⟨t, url, event.user_login⟩, ⟨t, url, event.user_login⟩]⟩, ?_, ?_⟩
  · rw [runCommands_cons, handle_add event i url hI hU d t, runCommands_cons,
      handle_add event i url hI hU _ t, runCommands_nil]
    simp
  · rw [to_markdown_of_ne_nil _ (by simp)]

/-- Witness for C4: two adds of the title `dup` on the empty ledger give
two entries and both bullets. -/
theorem C4_duplicates_witness :
    ∃ md, runCommands ⟨some ⟨1⟩, some "u", "al"⟩ (.ok "" ⟨[]⟩)
        [.Summary "dup", .Summary "dup"]
      = .ok md ⟨[⟨"dup", "u", "al"⟩, ⟨"dup", "u", "al"⟩]⟩
      ∧ md = summaryHeader
          ++ String.join ([NoteDataEntry.mk "dup" "u" "al",
              NoteDataEntry.mk "dup" "u" "al"].map NoteDataEntry.to_markdown)
          ++ attributionLine :=
  C4_duplicates ⟨some ⟨1⟩, some "u", "al"⟩ ⟨1⟩ "u" rfl rfl ⟨[]⟩ "dup"

/-- C9 (code bug): when the event lacks the associated issue or the
comment link, the dispatcher panics via `unwrap` (embedded as `panicked`,
a process abort), not a typed `MissingContext` rejection. -/
theorem C9_missing_context_panics :
    handle_command ⟨none, some "u", "w"⟩ (some ⟨[]⟩) (.Summary "t") = .panicked
    ∧ handle_command ⟨some ⟨1⟩, none, "w"⟩ (some ⟨[]⟩) (.Summary "t") = .panicked
    ∧ handle_command ⟨none, some "u", "w"⟩ (some ⟨[⟨"a", "u1", "w1"⟩]⟩)
        (.Remove "a") = .panicked :=
  ⟨rfl, rfl, rfl⟩

/-- C7: whenever the dispatcher succeeds, the structured state it hands to
the persistence collaborator renders, independently, to markdown textually
identical to the markdown handed alongside it. -/
theorem C7_persist_atomic (event : Event) (stored : Option NoteData)
    (cmd : NoteCommand) (md : String) (st : NoteData)
    (h : handle_command event stored cmd = .ok md st) :
    st.to_markdown = md := by
  cases hI : event.issue with
  | none => simp [handle_command, hI] at h
  | some i =>
    cases hU : event.html_url with
    | none => simp [handle_command, hI, hU] at h
    | some url =>
      cases cmd with
      | Summary title =>
        simp only [handle_command, hI, hU, HandleResult.ok.injEq] at h
        obtain ⟨h1, h2⟩ := h
        subst h2
        exact h1
      | Remove title =>
        cases hR : NoteData.remove (stored.getD NoteData.default) title with
        | none => simp [handle_command, hI, hU, hR] at h
        | some u =>
          simp only [handle_command, hI, hU, hR, HandleResult.ok.injEq] at h
          obtain ⟨h1, h2⟩ := h
          subst h2
          exact h1

/-- Witness for C7: a concrete successful Add, whose persisted state
renders to exactly the persisted markdown. -/
theorem C7_persist_atomic_witness :
    NoteData.to_markdown ⟨[⟨"t", "u", "al"⟩]⟩
      = "\n### Summary Notes\n\n- [\"t\" by @al](u)\n\nGenerated by triagebot, see [help](https://github.com/rust-lang/triagebot/wiki/Note) for how to add more" :=
  C7_persist_atomic ⟨some ⟨1⟩, some "u", "al"⟩ none (.Summary "t")
    "\n### Summary Notes\n\n- [\"t\" by @al](u)\n\nGenerated by triagebot, see [help](https://github.com/rust-lang/triagebot/wiki/Note) for how to add more"
    ⟨[⟨"t", "u", "al"⟩]⟩ rfl

/-- C8: when the persisted state is absent the dispatcher behaves exactly
as on the empty ledger, so the first Add on a document yields the ledger
containing only the new entry. -/
theorem C8_absent_is_empty (event : Event) (i : Issue) (url : String)
    (hI : event.issue = some i) (hU : event.html_url = some url) :
    (∀ (cmd : NoteCommand),
        handle_command event none cmd
          = handle_command event (some NoteData.default) cmd)
    ∧ ∀ t : String, handle_command event none (.Summary t)
        = .ok (NoteData.to_markdown ⟨[⟨t, url, event.user_login⟩]⟩)
              ⟨[⟨t, url, event.user_login⟩]⟩ := by
  constructor
  · intro cmd
    rfl
  · intro t
    simpa [NoteData.default] using handle_add event i url hI hU NoteData.default t

/-- Witness for C8: a first Add on a document with no persisted state. -/
theorem C8_absent_is_empty_witness :
    handle_command ⟨some ⟨1⟩, some "u", "al"⟩ none (.Summary "t")
      = .ok (NoteData.to_markdown ⟨[⟨"t", "u", "al"⟩]⟩) ⟨[⟨"t", "u", "al"⟩]⟩ :=
  (C8_absent_is_empty ⟨some ⟨1⟩, some "u", "al"⟩ ⟨1⟩ "u" rfl rfl).2 "t"

/-- C10: Add performs no validation of the title: adding the empty title
succeeds, appends an entry with empty title, and that entry's bullet
renders with an empty quoted title. -/
theorem C10_empty_title (event : Event) (i : Issue) (url : String)
    (hI : event.issue = some i) (hU : event.html_url = some url) (d : NoteData) :
    handle_command event (some d) (.Summary "")
      = .ok (NoteData.to_markdown ⟨d.entries ++ [⟨"", url, event.user_login⟩]⟩)
            ⟨d.entries ++ [⟨"", url, event.user_login⟩]⟩
    ∧ NoteDataEntry.to_markdown ⟨"", url, event.user_login⟩
      = "\n- [\"\" by @" ++ event.user_login ++ "](" ++ url ++ ")" := by
  constructor
  · exact handle_add event i url hI hU d ""
  · show ("\n- [\"" ++ "" ++ "\" by @" ++ event.user_login ++ "](" ++ url ++ ")" : String) = _
    rw [show ("\n- [\"" ++ "" ++ "\" by @" : String) = "\n- [\"\" by @" from rfl]

/-- Witness for C10: the empty-title Add on the empty ledger. -/
theorem C10_empty_title_witness :
    handle_command ⟨some ⟨1⟩, some "u", "al"⟩ (some ⟨[]⟩) (.Summary "")
      = .ok (NoteData.to_markdown ⟨[⟨"", "u", "al"⟩]⟩) ⟨[⟨"", "u", "al"⟩]⟩
    ∧ NoteDataEntry.to_markdown ⟨"", "u", "al"⟩ = "\n- [\"\" by @al](u)" := by
  have h := C10_empty_title ⟨some ⟨1⟩, some "u", "al"⟩ ⟨1⟩ "u" rfl rfl ⟨[]⟩
  exact ⟨h.1, h.2.trans (by decide)⟩

end Triagebot
